import Mathlib

/-!
Shallow embedding of `src/virtual-multi-entry.plugin.ts` (a Vite plugin that
synthesizes virtual aggregate entry modules) and proofs about the claims of
its specification.  Every definition mirrors the TypeScript source; JavaScript
strings are modelled as Lean `String` (lists of Unicode scalar values), JS
objects with known fields as structures whose `extra` field carries the
caller's unrelated keys, `undefined` as `Option.none`, and JS `Map`s /
object key sets as association lists.
-/

namespace VirtualMultiEntry

/-- JS `String.prototype.endsWith` (code-point based suffix test). -/
def strEndsWith (s suf : String) : Bool :=
  suf.data.isSuffixOf s.data

/-- Source `wrapInVirtualEntry`: the unresolved virtual identifier. -/
def wrapInVirtualEntry (entry : String) : String :=
  "virtual:" ++ entry

/-- The resolved identifier: the virtual identifier behind the `\0` sentinel
(source: `virtualResolvedEntryId`). -/
def virtualResolvedOf (name : String) : String :=
  "\x00" ++ wrapInVirtualEntry name

/-- The `type` discriminator of an entry; anything other than the literal
`'lib'` (i.e. `'app'` or an absent field) behaves as an application entry,
since the source only ever tests `options.type === 'lib'`. -/
inductive EntryType where
  | app
  | lib
deriving DecidableEq

/-- Source `isCssOnly`: `options.files.every(file => file.endsWith('.css'))`. -/
def isCssOnlyOf (files : List String) : Bool :=
  files.all (fun f => strEndsWith f ".css")

/-- Source `buildFileName`. -/
def buildFileName (name : String) (isCssOnly : Bool) : String :=
  name ++ "." ++ (if isCssOnly then "css" else "js")

/-- Source `resolveId` hook: suffix match for lib entries, exact match
otherwise. -/
def resolveId (typ : EntryType) (name id : String) : Option String :=
  let virtualEntryId := wrapInVirtualEntry name
  if typ = EntryType.lib ∧ strEndsWith id virtualEntryId = true then
    some (virtualResolvedOf name)
  else if virtualEntryId = id then
    some (virtualResolvedOf name)
  else
    none

/-- Source `transform` hook: only logs, always returns `null`. -/
def transformHook (_source _id : String) : Option String :=
  none

/-!  Node `path.basename` / `path.extname` (posix), as used by the `load`
hook on ordinary file names.  `baseOf` is the portion after the last `/`
(the file references fed to the plugin carry no trailing slashes). -/

/-- Characters of the path after its last `/`. -/
def baseOf (p : String) : List Char :=
  (p.data.reverse.takeWhile (fun c => c ≠ '/')).reverse

/-- Node `path.extname`: the suffix of the base name from its last dot,
empty when there is no dot, when the only dot is the leading character, or
for the special base name `..`. -/
def extOf (p : String) : String :=
  let base := baseOf p
  if base = ['.', '.'] then ""
  else
    let afterLastDot := base.reverse.takeWhile (fun c => c ≠ '.')
    if afterLastDot.length = base.length then ""
    else if afterLastDot.length + 1 = base.length then ""
    else String.mk (base.drop (base.length - 1 - afterLastDot.length))

/-- Node `path.basename(p, ext)`: the base name, with `ext` stripped when it
is a proper suffix of the base name. -/
def basenameExt (p : String) (ext : String) : String :=
  let base := String.mk (baseOf p)
  if ext ≠ "" ∧ base ≠ ext ∧ ext.data.isSuffixOf base.data = true then
    String.mk (base.data.take (base.data.length - ext.data.length))
  else base

/-- Source sanitization `entryName.replace(/[^a-zA-Z0-9_]/g, '_')`. -/
def sanitize (s : String) : String :=
  String.mk (s.data.map (fun c => if c.isAlphanum ∨ c = '_' then c else '_'))

/-- One generated line of the virtual module for one file (source: the
`options.files.map(...)` callback of `load`). -/
def fileLine (typ : EntryType) (file : String) : String :=
  let entryName := sanitize (basenameExt file (extOf file))
  match typ with
  | EntryType.lib => "export * as " ++ entryName ++ " from \"" ++ file ++ "\";"
  | EntryType.app => "import \"" ++ file ++ "\";"

/-- The `build.lib` field of the resolved environment configuration as read
by `load` (`this.environment.config.build?.lib`): either a plain string or
an object with an optional `name`. -/
inductive EnvLib where
  | str (s : String)
  | obj (name : Option String)

/-- Source: `typeof lib === 'string' ? lib : typeof lib === 'object' ? lib.name : undefined`. -/
def libNameOf : Option EnvLib → Option String
  | some (EnvLib.str s) => some s
  | some (EnvLib.obj n) => n
  | none => none

/-- Source `libFooter`: added only in lib mode and only when the configured
library name is truthy (a non-empty string). -/
def libFooterOf (typ : EntryType) (envLib : Option EnvLib) : String :=
  if typ = EntryType.lib then
    match libNameOf envLib with
    | some n => if n = "" then "" else "\nexport default " ++ n ++ ";"
    | none => ""
  else ""

/-- Source `importer`: header comment, the newline-joined per-file lines,
and the optional lib footer. -/
def loadSource (name : String) (typ : EntryType) (files : List String)
    (envLib : Option EnvLib) : String :=
  let header := "// Virtual multi-entry plugin for " ++ name ++ "\n"
  header ++ (String.intercalate "\n" (files.map (fileLine typ)) ++ libFooterOf typ envLib)

/-!  The content fingerprint used by `load` for duplicate detection:
`Buffer.from(importer).toString('base64')`, i.e. base64 of the UTF-8 bytes. -/

/-- UTF-8 encoding of one Unicode scalar value (as `Nat`s below 256). -/
def utf8EncodeCharNat (c : Nat) : List Nat :=
  if c < 128 then [c]
  else if c < 2048 then [192 + c / 64, 128 + c % 64]
  else if c < 65536 then [224 + c / 4096, 128 + (c / 64) % 64, 128 + c % 64]
  else [240 + c / 262144, 128 + (c / 4096) % 64, 128 + (c / 64) % 64, 128 + c % 64]

/-- UTF-8 encoding of a character sequence. -/
def utf8Encode : List Char → List Nat
  | [] => []
  | c :: cs => utf8EncodeCharNat c.toNat ++ utf8Encode cs

/-- The base64 alphabet character for a 6-bit value. -/
def sextetChar (n : Nat) : Char :=
  if n < 26 then Char.ofNat (65 + n)
  else if n < 52 then Char.ofNat (97 + (n - 26))
  else if n < 62 then Char.ofNat (48 + (n - 52))
  else if n = 62 then '+'
  else '/'

/-- Standard base64 encoding (with `=` padding) of a byte sequence, as
produced by Node's `buffer.toString('base64')`. -/
def base64Encode : List Nat → List Char
  | b0 :: b1 :: b2 :: rest =>
    let n := b0 * 65536 + b1 * 256 + b2
    sextetChar (n / 262144) :: sextetChar ((n / 4096) % 64) ::
      sextetChar ((n / 64) % 64) :: sextetChar (n % 64) :: base64Encode rest
  | [b0, b1] =>
    let n := b0 * 1024 + b1 * 4
    [sextetChar (n / 4096), sextetChar ((n / 64) % 64), sextetChar (n % 64), '=']
  | [b0] =>
    let n := b0 * 16
    [sextetChar (n / 64), sextetChar (n % 64), '=', '=']
  | [] => []

/-- Source `key`: `Buffer.from(importer).toString('base64')`. -/
def fingerprint (s : String) : String :=
  String.mk (base64Encode (utf8Encode s.data))

/-!  JS `Map` bookkeeping shared by all plugin closures of one
`virtualMultiEntryPlugin` call. -/

/-- Association-list lookup (JS `Map.get` / object indexing). -/
def assocGet : List (String × String) → String → Option String
  | [], _ => none
  | (k', v') :: rest, k => if k' = k then some v' else assocGet rest k

/-- Association-list update (JS `Map.set` / object key assignment): replace
the existing binding in place, else append. -/
def assocSet : List (String × String) → String → String → List (String × String)
  | [], k, v => [(k, v)]
  | (k', v') :: rest, k, v =>
    if k' = k then (k, v) :: rest else (k', v') :: assocSet rest k v

/-- The mutable per-build bookkeeping: `importMap` (fingerprint → first
producing entry name) and `duplicatedSources` (later entry name → first
entry name). -/
structure PluginState where
  importMap : List (String × String) := []
  duplicatedSources : List (String × String) := []

/-- Source `load` hook: returns the synthesized source for the owned
resolved identifier (recording duplicate fingerprints), `null` otherwise. -/
def loadHook (name : String) (typ : EntryType) (files : List String)
    (envLib : Option EnvLib) (st : PluginState) (id : String) :
    Option String × PluginState :=
  if id = virtualResolvedOf name then
    let importer := loadSource name typ files envLib
    let key := fingerprint importer
    match assocGet st.importMap key with
    | some existingImport =>
      (some importer,
        { st with duplicatedSources := assocSet st.duplicatedSources name existingImport })
    | none =>
      (some importer, { st with importMap := assocSet st.importMap key name })
  else
    (none, st)

/-!  The build configuration tree mutated by the `config` hook.  Known
fields are modelled as structure fields; each structure's `extra` list
carries the caller's unrelated keys, which JS object spread preserves. -/

/-- An asset descriptor as passed to an `assetFileNames` /
`entryFileNames` callback; `source` is `none` for `undefined`. -/
structure AssetInfo where
  originalFileNames : List String := []
  source : Option String := none
  facadeModuleId : Option String := none

/-- JS truthiness of an asset `source` string field. -/
def truthySource : Option String → Bool
  | some s => s ≠ ""
  | none => false

/-- A rollup naming option: either a pattern string or a callback. -/
inductive Naming where
  | pattern (s : String)
  | fn (f : AssetInfo → String)

/-- Source fallback `typeof old === 'function' ? old(info) : old || '[name].[extname]'`
(an empty pattern string is falsy, hence also falls back). -/
def applyNaming (old : Option Naming) (fallback : String) (info : AssetInfo) : String :=
  match old with
  | some (Naming.fn f) => f info
  | some (Naming.pattern p) => if p = "" then fallback else p
  | none => fallback

/-- The asset-naming callback installed by the `config` hook for app
entries (source lines 132-141). -/
def appAssetNamer (name : String) (isCssOnly : Bool) (virtualEntryId : String)
    (old : Option Naming) (info : AssetInfo) : String :=
  if isCssOnly ∧ info.originalFileNames.head? = some virtualEntryId ∧
      truthySource info.source = true then
    name ++ ".css"
  else
    applyNaming old "[name].[extname]" info

/-- The chunk-naming callback installed by the `config` hook for lib
entries (source lines 112-119). -/
def libEntryNamer (name : String) (virtualResolvedEntryId : String)
    (old : Option Naming) (info : AssetInfo) : String :=
  if info.facadeModuleId = some virtualResolvedEntryId then
    name ++ ".js"
  else
    applyNaming old "[name].[hash].chunk.js" info

/-- The `output` section of `rollupOptions`. -/
structure OutputOpts where
  assetFileNames : Option Naming := none
  entryFileNames : Option Naming := none
  extra : List (String × String) := []

/-- `rollupOptions.output` may be a single object or an array
(`Array.isArray`). -/
inductive OutputField where
  | single (o : OutputOpts)
  | arr (os : List OutputOpts)

/-- The `build.lib` section of the configuration under mutation. -/
structure LibOpts where
  entry : Option String := none
  name : Option String := none
  extra : List (String × String) := []

/-- The `build.rollupOptions` section; `input` is modelled in its object
form, a mapping from entry name to id. -/
structure RollupOptions where
  input : Option (List (String × String)) := none
  output : Option OutputField := none
  extra : List (String × String) := []

/-- The `build` section. -/
structure BuildOpts where
  lib : Option LibOpts := none
  rollupOptions : Option RollupOptions := none
  extra : List (String × String) := []

/-- The whole user configuration object handed to the `config` hook. -/
structure BuildConfig where
  build : Option BuildOpts := none
  extra : List (String × String) := []

/-- Source `config` hook (lines 81-146).  The initial guard fires exactly
when `config?.build?.rollupOptions?.input` is absent and replaces
`rollupOptions` with a copy carrying fresh empty `input` and `output`
objects; afterwards `build` and `rollupOptions` always exist in the real
object graph, so the later mutations through the `rollupOptions` alias are
reflected in the configuration.  The local `output` alias is written back
only when `rollupOptions.output` was actually present (the source never
stores the `?? {}` default back). -/
def configHook (name : String) (typ : EntryType) (isCssOnly : Bool)
    (cfg : BuildConfig) : BuildConfig :=
  let virtualEntryId := wrapInVirtualEntry name
  let inputMissing := ((cfg.build.bind (fun b => b.rollupOptions)).bind (fun r => r.input)).isNone
  let cfg :=
    if inputMissing then
      let oldBuild := cfg.build.getD {}
      let oldRo := (cfg.build.bind (fun b => b.rollupOptions)).getD {}
      let newRo : RollupOptions :=
        { oldRo with input := some [], output := some (OutputField.single {}) }
      let newBuild : BuildOpts := { oldBuild with rollupOptions := some newRo }
      { cfg with build := some newBuild }
    else cfg
  let build := cfg.build.getD {}
  let ro := build.rollupOptions.getD {}
  let outputPresent := ro.output.isSome
  let output := ro.output.getD (OutputField.single {})
  match typ with
  | EntryType.lib =>
    let oldLib := build.lib.getD {}
    let newLib : LibOpts := { oldLib with entry := some virtualEntryId, name := some name }
    let build := { build with lib := some newLib }
    let input := assocSet (ro.input.getD []) name virtualEntryId
    let output :=
      match output with
      | OutputField.arr os => OutputField.arr os
      | OutputField.single o =>
        let namer := Naming.fn (libEntryNamer name (virtualResolvedOf name) o.entryFileNames)
        OutputField.single { o with entryFileNames := some namer }
    let ro := { ro with
      input := some input,
      output := if outputPresent then some output else ro.output }
    { cfg with build := some ({ build with rollupOptions := some ro }) }
  | EntryType.app =>
    let input := assocSet (ro.input.getD []) name virtualEntryId
    let output :=
      match output with
      | OutputField.arr os => OutputField.arr os
      | OutputField.single o =>
        let namer := Naming.fn (appAssetNamer name isCssOnly virtualEntryId o.assetFileNames)
        OutputField.single { o with assetFileNames := some namer }
    let ro := { ro with
      input := some input,
      output := if outputPresent then some output else ro.output }
    { cfg with build := some ({ build with rollupOptions := some ro }) }

/-!  The `generateBundle` hook. -/

/-- The plugin options record. -/
structure Options where
  enforce : Option Bool := none

/-- JS truthiness of `pluginOptions?.enforce`. -/
def enforceTruthy : Option Options → Bool
  | some o => o.enforce.getD false
  | none => false

/-- An item of the finished bundle map: an asset (with `source`) or a
chunk (with `code`). -/
inductive BundleItem where
  | asset (source : String)
  | chunk (code : String)
deriving DecidableEq

/-- The `type` tag of a bundle item. -/
def bundleItemType : BundleItem → String
  | BundleItem.asset _ => "asset"
  | BundleItem.chunk _ => "chunk"

/-- Source `original.type === 'asset' ? original.source : original.code`. -/
def bundleItemContent : BundleItem → String
  | BundleItem.asset s => s
  | BundleItem.chunk c => c

/-- The record passed to `this.emitFile` by `generateBundle`. -/
structure Emitted where
  ty : String
  fileName : String
  name : String
  id : String
  source : String
deriving DecidableEq

/-- Lookup in the finished bundle map (`bundle[fileName]`). -/
def bundleGet (bundle : List (String × BundleItem)) (k : String) : Option BundleItem :=
  (bundle.find? (fun p => p.1 == k)).map Prod.snd

/-- Source `generateBundle` hook (lines 245-289): for every declared entry
key whose expected output file is missing from the bundle, copy the asset
of the entry it duplicates, when that asset exists. -/
def generateBundleHook (pluginOptions : Option Options) (isCssOnly : Bool)
    (entryKeys : List String) (duplicatedSources : List (String × String))
    (bundle : List (String × BundleItem)) : List Emitted :=
  if enforceTruthy pluginOptions = false ∨ isCssOnly = false then []
  else
    let missingEntries := entryKeys.filterMap (fun entry =>
      let fileName := buildFileName entry isCssOnly
      match bundleGet bundle fileName with
      | some _ => none
      | none => some (entry, fileName))
    missingEntries.filterMap (fun e =>
      match assocGet duplicatedSources e.1 with
      | none => none
      | some resolvedSource =>
        match bundleGet bundle (buildFileName resolvedSource isCssOnly) with
        | none => none
        | some original =>
          some { ty := bundleItemType original, fileName := e.2, name := e.1,
                 id := e.1, source := bundleItemContent original })

/-- A freshly constructed plugin's bookkeeping state. -/
def freshState : PluginState := {}

/-!  Projections of the configuration tree used to state what the `config`
hook preserves and what it overwrites. -/

/-- The `build.rollupOptions` section, when present. -/
def roOf (cfg : BuildConfig) : Option RollupOptions :=
  cfg.build.bind (fun b => b.rollupOptions)

/-- The `input` mapping, `[]` when absent. -/
def inputOf (cfg : BuildConfig) : List (String × String) :=
  ((roOf cfg).bind (fun r => r.input)).getD []

/-- Whether `build.rollupOptions.input` is present (the truthiness the
initial guard of the `config` hook tests). -/
def inputPresent (cfg : BuildConfig) : Bool :=
  ((roOf cfg).bind (fun r => r.input)).isSome

/-- Skeleton of the `output` section: `none` when absent, `some none` for
an array, `some (some extra)` for a single object with the caller's
unrelated keys `extra`. -/
def outSkel (cfg : BuildConfig) : Option (Option (List (String × String))) :=
  ((roOf cfg).bind (fun r => r.output)).map (fun o =>
    match o with
    | OutputField.single oo => some oo.extra
    | OutputField.arr _ => none)

/-- Caller keys of the `build` section, `[]` when absent. -/
def buildExtraOf (cfg : BuildConfig) : List (String × String) :=
  (cfg.build.map (fun b => b.extra)).getD []

/-- Caller keys of the `rollupOptions` section, `[]` when absent. -/
def roExtraOf (cfg : BuildConfig) : List (String × String) :=
  ((roOf cfg).map (fun r => r.extra)).getD []

/-- A caller configuration with an `output` key but no `input` mapping. -/
def cexConfig : BuildConfig :=
  let oo : OutputOpts := { extra := [("banner", "x")] }
  let ro : RollupOptions := { output := some (OutputField.single oo) }
  let b : BuildOpts := { rollupOptions := some ro }
  { build := some b }

/-- A caller configuration with an input mapping and an empty single
`output` object. -/
def installConfig : BuildConfig :=
  let ro : RollupOptions := { input := some [], output := some (OutputField.single {}) }
  let b : BuildOpts := { rollupOptions := some ro }
  { build := some b }

/-- Decoder for `utf8EncodeCharNat` (proof artifact establishing
injectivity of the encoding). -/
def utf8DecodeFirst : List Nat → Option (Nat × List Nat)
  | [] => none
  | b :: bs =>
    if b < 128 then some (b, bs)
    else if b < 224 then
      match bs with
      | b1 :: bs' => some ((b - 192) * 64 + (b1 - 128), bs')
      | [] => none
    else if b < 240 then
      match bs with
      | b1 :: b2 :: bs' => some ((b - 224) * 4096 + (b1 - 128) * 64 + (b2 - 128), bs')
      | _ => none
    else
      match bs with
      | b1 :: b2 :: b3 :: bs' =>
        some ((b - 240) * 262144 + (b1 - 128) * 4096 + (b2 - 128) * 64 + (b3 - 128), bs')
      | _ => none

/-- Value of a base64 alphabet character (proof artifact inverting
`sextetChar`). -/
def sextetVal (c : Char) : Nat :=
  if c = '+' then 62
  else if c = '/' then 63
  else if 97 ≤ c.toNat then c.toNat - 97 + 26
  else if 65 ≤ c.toNat then c.toNat - 65
  else c.toNat - 48 + 52

/-- Decoder for `base64Encode` (proof artifact establishing injectivity of
the encoding). -/
def base64Decode : List Char → Option (List Nat)
  | c0 :: c1 :: c2 :: c3 :: rest =>
    if c2 = '=' then
      if rest = [] ∧ c3 = '=' then some [(sextetVal c0 * 64 + sextetVal c1) / 16]
      else none
    else if c3 = '=' then
      if rest = [] then
        let n := sextetVal c0 * 4096 + sextetVal c1 * 64 + sextetVal c2
        some [n / 1024, (n / 4) % 256]
      else none
    else
      match base64Decode rest with
      | some bs =>
        let n := sextetVal c0 * 262144 + sextetVal c1 * 4096 + sextetVal c2 * 64 + sextetVal c3
        some (n / 65536 :: (n / 256) % 256 :: n % 256 :: bs)
      | none => none
  | [] => some []
  | _ => none

/-- The entry name embedded in a generated source's header line: the
characters after the 34-character header lead and before the first
newline. -/
def extractName (s : String) : String :=
  String.mk ((s.data.drop 34).takeWhile (fun c => c != '\n'))

/-- One build's `load` phase: the load hook of each entry invoked once, in
order, at its own resolved virtual identifier, threading the shared
bookkeeping state. -/
def runLoads (envLib : Option EnvLib) :
    List (String × EntryType × List String) → PluginState → PluginState
  | [], st => st
  | e :: rest, st =>
    runLoads envLib rest (loadHook e.1 e.2.1 e.2.2 envLib st (virtualResolvedOf e.1)).2

/-!  Theorems. -/

/-- The owned branch of `load` always returns the synthesized source text,
whatever the bookkeeping state. -/
lemma loadHook_fst_owned (name : String) (typ : EntryType) (files : List String)
    (envLib : Option EnvLib) (st : PluginState) :
    (loadHook name typ files envLib st (virtualResolvedOf name)).1 =
      some (loadSource name typ files envLib) := by
  unfold loadHook
  rw [if_pos rfl]
  dsimp only
  split <;> rfl

/-- `buildFileName` for a style-only entry is `<name>.css`. -/
lemma buildFileName_css (name : String) : buildFileName name true = name ++ ".css" := by
  unfold buildFileName
  rw [String.append_assoc]
  rfl

/-- C1, counterexample: for the Application entry named `styles`, the
requested id `xvirtual:styles` ends with `virtual:styles` yet `resolveId`
returns `null`, so the claimed "equals or ends with" criterion is false
for Application entries. -/
theorem c1_counterexample :
    strEndsWith "xvirtual:styles" (wrapInVirtualEntry "styles") = true ∧
    resolveId EntryType.app "styles" "xvirtual:styles" = none := by
  constructor
  · decide
  · rfl

/-- C1, amended: for every Application-kind entry, `resolveId` returns the
sentinel-prefixed virtual identifier exactly when the requested id equals
`virtual:<name>`, and `null` for every other id (in particular for ids that
merely end with, or share a prefix with, the virtual identifier); the
suffix-matching branch of the hook applies only to Library entries. -/
theorem c1_resolveId_app_exact (name id : String) :
    resolveId EntryType.app name id =
      (if wrapInVirtualEntry name = id then some (virtualResolvedOf name) else none) := by
  simp [resolveId]

/-- C2: with the duplicate map recording the second style-only entry as a
duplicate of the first (the bookkeeping `load` produces when both entries'
generated sources have the same fingerprint) and the finished bundle
containing an asset only under the first entry's expected file name
`<first>.css`, the `generateBundle` hook with the enforce option emits
exactly one additional asset named `<second>.css` whose content is copied
verbatim from the first entry's asset (source bytes for an asset, code
text for a chunk); with the enforce option false or absent it emits
nothing under the same bundle conditions. -/
theorem c2_reconciler_emits (n1 n2 : String) (dups : List (String × String))
    (bundle : List (String × BundleItem)) (item : BundleItem)
    (h1 : bundleGet bundle (n1 ++ ".css") = some item)
    (h2 : bundleGet bundle (n2 ++ ".css") = none)
    (hd : assocGet dups n2 = some n1) :
    generateBundleHook (some ⟨some true⟩) true [n1, n2] dups bundle =
      [{ ty := bundleItemType item, fileName := n2 ++ ".css", name := n2,
         id := n2, source := bundleItemContent item }] ∧
    (∀ opts : Option Options, enforceTruthy opts = false →
      generateBundleHook opts true [n1, n2] dups bundle = []) := by
  constructor
  · unfold generateBundleHook
    rw [if_neg (by simp [enforceTruthy])]
    simp [List.filterMap, buildFileName_css, h1, h2, hd]
  · intro opts hopts
    unfold generateBundleHook
    rw [if_pos (Or.inl hopts)]

/-- C2, witness: a concrete two-entry bundle state on which the reconciler
emits exactly the copied `second.css` asset. -/
theorem c2_reconciler_emits_witness :
    bundleGet [("first.css", BundleItem.asset "body")] ("first" ++ ".css") =
        some (BundleItem.asset "body") ∧
    bundleGet [("first.css", BundleItem.asset "body")] ("second" ++ ".css") = none ∧
    assocGet [("second", "first")] "second" = some "first" ∧
    (generateBundleHook (some ⟨some true⟩) true ["first", "second"] [("second", "first")]
        [("first.css", BundleItem.asset "body")] =
      [{ ty := bundleItemType (BundleItem.asset "body"), fileName := "second" ++ ".css",
         name := "second", id := "second",
         source := bundleItemContent (BundleItem.asset "body") }] ∧
    (∀ opts : Option Options, enforceTruthy opts = false →
      generateBundleHook opts true ["first", "second"] [("second", "first")]
        [("first.css", BundleItem.asset "body")] = [])) :=
  ⟨by decide, by decide, by decide,
    c2_reconciler_emits "first" "second" [("second", "first")]
      [("first.css", BundleItem.asset "body")] (BundleItem.asset "body")
      (by decide) (by decide) (by decide)⟩

/-- C4: the Library entry `components` with files `a.js`, `b.js` and
configured library name `Components` loads exactly the claimed source. -/
theorem c4_lib_load_exact :
    (loadHook "components" EntryType.lib ["a.js", "b.js"]
        (some (EnvLib.obj (some "Components"))) freshState
        (virtualResolvedOf "components")).1 =
      some "// Virtual multi-entry plugin for components\nexport * as a from \"a.js\";\nexport * as b from \"b.js\";\nexport default Components;" := by
  rfl

/-- C5: the Application entry `styles` with files `s.css`, `u.css` loads
exactly the claimed source, with no default export, whatever the library
section of the build configuration declares. -/
theorem c5_app_load_exact (envLib : Option EnvLib) :
    (loadHook "styles" EntryType.app ["s.css", "u.css"] envLib freshState
        (virtualResolvedOf "styles")).1 =
      some "// Virtual multi-entry plugin for styles\nimport \"s.css\";\nimport \"u.css\";" := by
  rfl

/-- C8: the hooks are total functions of the embedding, and on an
identifier the entry does not own, `resolveId` and `load` return `null`
(with `load` leaving the bookkeeping state unchanged) and `transform`
always returns `null`. -/
theorem c8_hooks_abstain (name id src : String) (typ : EntryType) (files : List String)
    (envLib : Option EnvLib) (st : PluginState)
    (hr1 : ¬ (typ = EntryType.lib ∧ strEndsWith id (wrapInVirtualEntry name) = true))
    (hr2 : wrapInVirtualEntry name ≠ id)
    (hl : id ≠ virtualResolvedOf name) :
    resolveId typ name id = none ∧
    loadHook name typ files envLib st id = (none, st) ∧
    transformHook src id = none := by
  refine ⟨?_, ?_, rfl⟩
  · unfold resolveId
    rw [if_neg hr1, if_neg hr2]
  · unfold loadHook
    rw [if_neg hl]

/-- C8, witness: the hooks abstain on the concrete foreign identifier
`other`. -/
theorem c8_hooks_abstain_witness :
    (¬ (EntryType.app = EntryType.lib ∧
        strEndsWith "other" (wrapInVirtualEntry "styles") = true)) ∧
    wrapInVirtualEntry "styles" ≠ "other" ∧
    "other" ≠ virtualResolvedOf "styles" ∧
    (resolveId EntryType.app "styles" "other" = none ∧
      loadHook "styles" EntryType.app ["s.css"] none freshState "other" = (none, freshState) ∧
      transformHook "src" "other" = none) :=
  ⟨by decide, by decide, by decide,
    c8_hooks_abstain "styles" "other" "src" EntryType.app ["s.css"] none freshState
      (by decide) (by decide) (by decide)⟩

lemma assocGet_assocSet_self (l : List (String × String)) (k v : String) :
    assocGet (assocSet l k v) k = some v := by
  induction l with
  | nil => simp [assocSet, assocGet]
  | cons p rest ih =>
    by_cases h : p.1 = k
    · simp [assocSet, assocGet, h]
    · simp [assocSet, assocGet, h, ih]

lemma assocGet_assocSet_ne (l : List (String × String)) (k v k' : String) (h : k' ≠ k) :
    assocGet (assocSet l k v) k' = assocGet l k' := by
  induction l with
  | nil => simp [assocSet, assocGet, h, Ne.symm h]
  | cons p rest ih =>
    by_cases hp : p.1 = k
    · simp [assocSet, assocGet, hp, h, Ne.symm h]
    · simp [assocSet, assocGet, hp, h, Ne.symm h, ih]

/-- Effect of one application of the `config` hook for an app entry: the
entry's key is added to the input mapping, all caller keys of `build` and
`rollupOptions` survive, and the `output` skeleton survives exactly when
the configuration already had an input mapping (else it is reset to a
fresh object). -/
lemma configHook_app_proj (name : String) (css : Bool) (cfg : BuildConfig) :
    inputOf (configHook name EntryType.app css cfg) =
      assocSet (inputOf cfg) name (wrapInVirtualEntry name) ∧
    inputPresent (configHook name EntryType.app css cfg) = true ∧
    buildExtraOf (configHook name EntryType.app css cfg) = buildExtraOf cfg ∧
    roExtraOf (configHook name EntryType.app css cfg) = roExtraOf cfg ∧
    (configHook name EntryType.app css cfg).extra = cfg.extra ∧
    outSkel (configHook name EntryType.app css cfg) =
      (if inputPresent cfg then outSkel cfg else some (some [])) := by
  rcases cfg with ⟨build, extra⟩
  rcases build with _ | ⟨lib, ro, bextra⟩
  · simp [configHook, inputOf, inputPresent, roOf, outSkel, buildExtraOf, roExtraOf]
  · rcases ro with _ | ⟨inp, outp, rextra⟩
    · simp [configHook, inputOf, inputPresent, roOf, outSkel, buildExtraOf, roExtraOf]
    · rcases inp with _ | l
      · simp [configHook, inputOf, inputPresent, roOf, outSkel, buildExtraOf, roExtraOf]
      · rcases outp with _ | f
        · simp [configHook, inputOf, inputPresent, roOf, outSkel, buildExtraOf, roExtraOf]
        · rcases f with o | os <;>
            simp [configHook, inputOf, inputPresent, roOf, outSkel, buildExtraOf, roExtraOf]

/-- C3, counterexample: a configuration whose caller set a key (`banner`)
inside `rollupOptions.output` but no `input`: after two applications of
the `config` hook the key is gone, because the initial guard replaces
`output` with a fresh empty object. -/
theorem c3_counterexample :
    outSkel cexConfig = some (some [("banner", "x")]) ∧
    outSkel (configHook "two" EntryType.app true
        (configHook "one" EntryType.app true cexConfig)) = some (some []) := by
  constructor <;> rfl

/-- C3, amended: after two applications of the `config` hook (two distinct
app entries) the input mapping contains both entries' keys, every other
pre-existing input key and the caller keys of the `build` and
`rollupOptions` sections are preserved, and caller keys inside
`rollupOptions.output` are preserved exactly when the initial
configuration already had an input mapping — when it did not, the hook
resets `output` to a fresh object. -/
theorem c3_config_merge (cfg : BuildConfig) (n1 n2 k : String) (css1 css2 : Bool)
    (h12 : n1 ≠ n2) (hk1 : k ≠ n1) (hk2 : k ≠ n2) :
    assocGet (inputOf (configHook n2 EntryType.app css2
        (configHook n1 EntryType.app css1 cfg))) n1 = some (wrapInVirtualEntry n1) ∧
    assocGet (inputOf (configHook n2 EntryType.app css2
        (configHook n1 EntryType.app css1 cfg))) n2 = some (wrapInVirtualEntry n2) ∧
    assocGet (inputOf (configHook n2 EntryType.app css2
        (configHook n1 EntryType.app css1 cfg))) k = assocGet (inputOf cfg) k ∧
    buildExtraOf (configHook n2 EntryType.app css2
        (configHook n1 EntryType.app css1 cfg)) = buildExtraOf cfg ∧
    roExtraOf (configHook n2 EntryType.app css2
        (configHook n1 EntryType.app css1 cfg)) = roExtraOf cfg ∧
    (configHook n2 EntryType.app css2 (configHook n1 EntryType.app css1 cfg)).extra = cfg.extra ∧
    outSkel (configHook n2 EntryType.app css2 (configHook n1 EntryType.app css1 cfg)) =
      (if inputPresent cfg then outSkel cfg else some (some [])) := by
  obtain ⟨i1, p1, b1, r1, e1, o1⟩ := configHook_app_proj n1 css1 cfg
  obtain ⟨i2, p2, b2, r2, e2, o2⟩ :=
    configHook_app_proj n2 css2 (configHook n1 EntryType.app css1 cfg)
  refine ⟨?_, ?_, ?_, ?_, ?_, ?_, ?_⟩
  · rw [i2, assocGet_assocSet_ne _ _ _ _ h12, i1, assocGet_assocSet_self]
  · rw [i2, assocGet_assocSet_self]
  · rw [i2, assocGet_assocSet_ne _ _ _ _ hk2, i1, assocGet_assocSet_ne _ _ _ _ hk1]
  · rw [b2, b1]
  · rw [r2, r1]
  · rw [e2, e1]
  · rw [o2, p1, o1]
    simp

/-- C3, witness: the merge theorem evaluated on the concrete
`cexConfig` and entry names `one`, `two`. -/
theorem c3_config_merge_witness :
    ("one" : String) ≠ "two" ∧ ("zzz" : String) ≠ "one" ∧ ("zzz" : String) ≠ "two" ∧
    (assocGet (inputOf (configHook "two" EntryType.app true
        (configHook "one" EntryType.app true cexConfig))) "one" =
          some (wrapInVirtualEntry "one") ∧
      assocGet (inputOf (configHook "two" EntryType.app true
        (configHook "one" EntryType.app true cexConfig))) "two" =
          some (wrapInVirtualEntry "two") ∧
      assocGet (inputOf (configHook "two" EntryType.app true
        (configHook "one" EntryType.app true cexConfig))) "zzz" =
          assocGet (inputOf cexConfig) "zzz" ∧
      buildExtraOf (configHook "two" EntryType.app true
        (configHook "one" EntryType.app true cexConfig)) = buildExtraOf cexConfig ∧
      roExtraOf (configHook "two" EntryType.app true
        (configHook "one" EntryType.app true cexConfig)) = roExtraOf cexConfig ∧
      (configHook "two" EntryType.app true
        (configHook "one" EntryType.app true cexConfig)).extra = cexConfig.extra ∧
      outSkel (configHook "two" EntryType.app true
        (configHook "one" EntryType.app true cexConfig)) =
        (if inputPresent cexConfig then outSkel cexConfig else some (some []))) :=
  ⟨by decide, by decide, by decide,
    c3_config_merge cexConfig "one" "two" "zzz" true true
      (by decide) (by decide) (by decide)⟩

/-- The `config` hook of an app entry, on a configuration that already has
an input mapping and a single `output` object, wraps that object's
`assetFileNames` with the CSS-aware namer. -/
lemma configHook_app_install (name : String) (css : Bool) (oo : OutputOpts) (cfg : BuildConfig)
    (hin : inputPresent cfg = true)
    (hout : (roOf cfg).bind (fun r => r.output) = some (OutputField.single oo)) :
    (roOf (configHook name EntryType.app css cfg)).bind (fun r => r.output) =
      some (OutputField.single { oo with
        assetFileNames := some (Naming.fn
          (appAssetNamer name css (wrapInVirtualEntry name) oo.assetFileNames)) }) := by
  rcases cfg with ⟨build, extra⟩
  rcases build with _ | ⟨lib, ro, bextra⟩
  · simp [inputPresent, roOf] at hin
  · rcases ro with _ | ⟨inp, outp, rextra⟩
    · simp [inputPresent, roOf] at hin
    · rcases inp with _ | l
      · simp [inputPresent, roOf] at hin
      · simp [roOf] at hout
        rw [hout]
        simp [configHook, roOf]

/-- C6: the asset-naming function the `config` hook installs for an app
entry returns `<name>.css` exactly when the entry is style-only, the
asset's first declared original file name equals the unresolved virtual
identifier, and the asset has non-empty source content; in every other
case it defers to the previously installed naming function or pattern, or
to the generic fallback `[name].[extname]`.  Moreover an entry with files
`a.css`, `b.js` is not style-only, so its installed namer always defers. -/
theorem c6_asset_naming (name : String) (files : List String) (oo : OutputOpts) (cfg : BuildConfig)
    (hin : inputPresent cfg = true)
    (hout : (roOf cfg).bind (fun r => r.output) = some (OutputField.single oo)) :
    (∃ g, (roOf (configHook name EntryType.app (isCssOnlyOf files) cfg)).bind (fun r => r.output) =
        some (OutputField.single { oo with assetFileNames := some (Naming.fn g) }) ∧
      ∀ info : AssetInfo,
        g info = (if isCssOnlyOf files ∧
              info.originalFileNames.head? = some (wrapInVirtualEntry name) ∧
              truthySource info.source = true
            then name ++ ".css"
            else applyNaming oo.assetFileNames "[name].[extname]" info)) ∧
    isCssOnlyOf ["a.css", "b.js"] = false ∧
    (∀ (old : Option Naming) (info : AssetInfo),
      appAssetNamer name (isCssOnlyOf ["a.css", "b.js"]) (wrapInVirtualEntry name) old info =
        applyNaming old "[name].[extname]" info) := by
  refine ⟨⟨appAssetNamer name (isCssOnlyOf files) (wrapInVirtualEntry name) oo.assetFileNames,
      configHook_app_install name (isCssOnlyOf files) oo cfg hin hout, fun info => rfl⟩,
    by decide, ?_⟩
  intro old info
  have hfalse : isCssOnlyOf ["a.css", "b.js"] = false := by decide
  simp [appAssetNamer, hfalse]

/-- C6, witness: the naming theorem evaluated on a concrete entry and
configuration. -/
theorem c6_asset_naming_witness :
    inputPresent installConfig = true ∧
    (roOf installConfig).bind (fun r => r.output) = some (OutputField.single {}) ∧
    ((∃ g, (roOf (configHook "styles" EntryType.app (isCssOnlyOf ["s.css"])
          installConfig)).bind (fun r => r.output) =
        some (OutputField.single { ({} : OutputOpts) with assetFileNames := some (Naming.fn g) }) ∧
      ∀ info : AssetInfo,
        g info = (if isCssOnlyOf ["s.css"] ∧
              info.originalFileNames.head? = some (wrapInVirtualEntry "styles") ∧
              truthySource info.source = true
            then "styles" ++ ".css"
            else applyNaming ({} : OutputOpts).assetFileNames "[name].[extname]" info)) ∧
    isCssOnlyOf ["a.css", "b.js"] = false ∧
    (∀ (old : Option Naming) (info : AssetInfo),
      appAssetNamer "styles" (isCssOnlyOf ["a.css", "b.js"]) (wrapInVirtualEntry "styles") old info =
        applyNaming old "[name].[extname]" info)) :=
  ⟨rfl, rfl, c6_asset_naming "styles" ["s.css"] {} installConfig rfl rfl⟩

/-- C10: an entry with an empty files list is classified style-only (the
`every` test holds vacuously), its expected output file name is
`<name>.css`, the CSS asset-naming override is installed for it, and with
the enforce option set it participates in the `generateBundle`
reconciliation as a style-only entry. -/
theorem c10_empty_files_style_only (name m : String) (oo : OutputOpts) (cfg : BuildConfig)
    (dups : List (String × String)) (bundle : List (String × BundleItem)) (item : BundleItem)
    (hin : inputPresent cfg = true)
    (hout : (roOf cfg).bind (fun r => r.output) = some (OutputField.single oo))
    (hmiss : bundleGet bundle (name ++ ".css") = none)
    (hdup : assocGet dups name = some m)
    (horig : bundleGet bundle (m ++ ".css") = some item) :
    isCssOnlyOf [] = true ∧
    buildFileName name (isCssOnlyOf []) = name ++ ".css" ∧
    (∃ g, (roOf (configHook name EntryType.app (isCssOnlyOf []) cfg)).bind (fun r => r.output) =
        some (OutputField.single { oo with assetFileNames := some (Naming.fn g) }) ∧
      ∀ info : AssetInfo, info.originalFileNames.head? = some (wrapInVirtualEntry name) →
        truthySource info.source = true → g info = name ++ ".css") ∧
    generateBundleHook (some ⟨some true⟩) (isCssOnlyOf []) [name] dups bundle =
      [{ ty := bundleItemType item, fileName := name ++ ".css", name := name,
         id := name, source := bundleItemContent item }] := by
  refine ⟨rfl, buildFileName_css name, ⟨appAssetNamer name (isCssOnlyOf [])
      (wrapInVirtualEntry name) oo.assetFileNames,
    configHook_app_install name (isCssOnlyOf []) oo cfg hin hout, ?_⟩, ?_⟩
  · intro info h1 h2
    simp [appAssetNamer, h1, h2, isCssOnlyOf]
  · unfold generateBundleHook
    rw [if_neg (by simp [enforceTruthy, isCssOnlyOf])]
    simp [List.filterMap, buildFileName_css, hmiss, hdup, horig, isCssOnlyOf]

/-- C10, witness: the empty-files theorem evaluated on a concrete entry,
configuration and bundle. -/
theorem c10_empty_files_style_only_witness :
    inputPresent installConfig = true ∧
    (roOf installConfig).bind (fun r => r.output) = some (OutputField.single {}) ∧
    bundleGet [("orig.css", BundleItem.asset "x")] ("empty" ++ ".css") = none ∧
    assocGet [("empty", "orig")] "empty" = some "orig" ∧
    bundleGet [("orig.css", BundleItem.asset "x")] ("orig" ++ ".css") =
      some (BundleItem.asset "x") ∧
    (isCssOnlyOf [] = true ∧
      buildFileName "empty" (isCssOnlyOf []) = "empty" ++ ".css" ∧
      (∃ g, (roOf (configHook "empty" EntryType.app (isCssOnlyOf [])
            installConfig)).bind (fun r => r.output) =
          some (OutputField.single { ({} : OutputOpts) with
            assetFileNames := some (Naming.fn g) }) ∧
        ∀ info : AssetInfo, info.originalFileNames.head? = some (wrapInVirtualEntry "empty") →
          truthySource info.source = true → g info = "empty" ++ ".css") ∧
      generateBundleHook (some ⟨some true⟩) (isCssOnlyOf []) ["empty"] [("empty", "orig")]
          [("orig.css", BundleItem.asset "x")] =
        [{ ty := bundleItemType (BundleItem.asset "x"), fileName := "empty" ++ ".css",
           name := "empty", id := "empty",
           source := bundleItemContent (BundleItem.asset "x") }]) :=
  ⟨rfl, rfl, by decide, by decide, by decide,
    c10_empty_files_style_only "empty" "orig" {} installConfig [("empty", "orig")]
      [("orig.css", BundleItem.asset "x")] (BundleItem.asset "x")
      rfl rfl (by decide) (by decide) (by decide)⟩

/-- C9: calling `load` a second time with the same resolved virtual
identifier on a freshly constructed plugin returns byte-identical source
text: the bookkeeping mutations of the first call do not change the text
returned by the second. -/
theorem c9_load_idempotent (name : String) (typ : EntryType) (files : List String)
    (envLib : Option EnvLib) :
    (loadHook name typ files envLib freshState (virtualResolvedOf name)).1 =
      (loadHook name typ files envLib
        (loadHook name typ files envLib freshState (virtualResolvedOf name)).2
        (virtualResolvedOf name)).1 := by
  rw [loadHook_fst_owned, loadHook_fst_owned]

/-!  Machinery for C7: the fingerprint is injective (proved through
explicit decoders for the base64 and UTF-8 encodings) and the header line
of the generated source embeds the entry name, so distinct newline-free
entry names can never produce identical sources or fingerprints. -/

lemma utf8DecodeFirst_encode (c : Nat) (hc : c < 1114112) (rest : List Nat) :
    utf8DecodeFirst (utf8EncodeCharNat c ++ rest) = some (c, rest) := by
  unfold utf8EncodeCharNat
  by_cases h1 : c < 128
  · simp [h1, utf8DecodeFirst]
  · by_cases h2 : c < 2048
    · have ha : ¬ (192 + c / 64 < 128) := by omega
      have hb : 192 + c / 64 < 224 := by omega
      simp [h1, h2, utf8DecodeFirst, ha, hb]
      omega
    · by_cases h3 : c < 65536
      · have ha : ¬ (224 + c / 4096 < 128) := by omega
        have hb : ¬ (224 + c / 4096 < 224) := by omega
        have hcc : 224 + c / 4096 < 240 := by omega
        simp [h1, h2, h3, utf8DecodeFirst, ha, hb, hcc]
        omega
      · have ha : ¬ (240 + c / 262144 < 128) := by omega
        have hb : ¬ (240 + c / 262144 < 224) := by omega
        have hcc : ¬ (240 + c / 262144 < 240) := by omega
        simp [h1, h2, h3, utf8DecodeFirst, ha, hb, hcc]
        omega

lemma utf8EncodeCharNat_ne_nil (c : Nat) : utf8EncodeCharNat c ≠ [] := by
  by_cases h1 : c < 128 <;> by_cases h2 : c < 2048 <;> by_cases h3 : c < 65536 <;>
    simp [utf8EncodeCharNat, h1, h2, h3]

lemma char_toNat_lt (c : Char) : c.toNat < 1114112 := by
  have h := c.valid
  rcases h with h | ⟨h1, h2⟩
  · exact Nat.lt_trans h (by norm_num)
  · exact h2

lemma char_toNat_inj (a b : Char) (h : a.toNat = b.toNat) : a = b := by
  apply Char.ext
  exact UInt32.ext h

lemma utf8Encode_inj : ∀ l1 l2 : List Char, utf8Encode l1 = utf8Encode l2 → l1 = l2
  | [], [], _ => rfl
  | [], c :: cs, h => by
    exfalso
    have hn : utf8EncodeCharNat c.toNat ++ utf8Encode cs = [] := h.symm
    rcases List.append_eq_nil.mp hn with ⟨h1, _⟩
    exact utf8EncodeCharNat_ne_nil _ h1
  | c :: cs, [], h => by
    exfalso
    have hn : utf8EncodeCharNat c.toNat ++ utf8Encode cs = [] := h
    rcases List.append_eq_nil.mp hn with ⟨h1, _⟩
    exact utf8EncodeCharNat_ne_nil _ h1
  | c1 :: t1, c2 :: t2, h => by
    have d1 := utf8DecodeFirst_encode c1.toNat (char_toNat_lt c1) (utf8Encode t1)
    have d2 := utf8DecodeFirst_encode c2.toNat (char_toNat_lt c2) (utf8Encode t2)
    have hh : utf8EncodeCharNat c1.toNat ++ utf8Encode t1 =
        utf8EncodeCharNat c2.toNat ++ utf8Encode t2 := h
    rw [hh] at d1
    rw [d2] at d1
    obtain ⟨hc, ht⟩ : c2.toNat = c1.toNat ∧ utf8Encode t2 = utf8Encode t1 := by
      simpa using d1
    exact congrArg₂ List.cons (char_toNat_inj _ _ hc.symm) (utf8Encode_inj t1 t2 ht.symm)

lemma sextetVal_sextetChar_fin : ∀ n : Fin 64, sextetVal (sextetChar n.val) = n.val := by
  decide

lemma sextetChar_ne_pad_fin : ∀ n : Fin 64, sextetChar n.val ≠ '=' := by
  decide

lemma sextetVal_sextetChar (n : Nat) (h : n < 64) : sextetVal (sextetChar n) = n :=
  sextetVal_sextetChar_fin ⟨n, h⟩

lemma sextetChar_ne_pad (n : Nat) (h : n < 64) : sextetChar n ≠ '=' :=
  sextetChar_ne_pad_fin ⟨n, h⟩

lemma base64Decode_encode : ∀ l : List Nat, (∀ b ∈ l, b < 256) →
    base64Decode (base64Encode l) = some l
  | [], _ => rfl
  | [b0], h => by
    have hb0 : b0 < 256 := h b0 (by simp)
    have h1 : b0 * 16 / 64 < 64 := by omega
    have h2 : b0 * 16 % 64 < 64 := by omega
    have e1 := sextetVal_sextetChar _ h1
    have e2 := sextetVal_sextetChar _ h2
    simp [base64Encode, base64Decode, e1, e2]
    omega
  | [b0, b1], h => by
    have hb0 : b0 < 256 := h b0 (by simp)
    have hb1 : b1 < 256 := h b1 (by simp)
    have h1 : (b0 * 1024 + b1 * 4) / 4096 < 64 := by omega
    have h2 : (b0 * 1024 + b1 * 4) / 64 % 64 < 64 := by omega
    have h3 : (b0 * 1024 + b1 * 4) % 64 < 64 := by omega
    have e1 := sextetVal_sextetChar _ h1
    have e2 := sextetVal_sextetChar _ h2
    have e3 := sextetVal_sextetChar _ h3
    have hne : sextetChar ((b0 * 1024 + b1 * 4) % 64) ≠ '=' := sextetChar_ne_pad _ h3
    simp [base64Encode, base64Decode, hne, e1, e2, e3]
    omega
  | b0 :: b1 :: b2 :: rest, h => by
    have hb0 : b0 < 256 := h b0 (by simp)
    have hb1 : b1 < 256 := h b1 (by simp)
    have hb2 : b2 < 256 := h b2 (by simp)
    have ih := base64Decode_encode rest (fun b hb => h b (by simp [hb]))
    have h1 : (b0 * 65536 + b1 * 256 + b2) / 262144 < 64 := by omega
    have h2 : (b0 * 65536 + b1 * 256 + b2) / 4096 % 64 < 64 := by omega
    have h3 : (b0 * 65536 + b1 * 256 + b2) / 64 % 64 < 64 := by omega
    have h4 : (b0 * 65536 + b1 * 256 + b2) % 64 < 64 := by omega
    have e1 := sextetVal_sextetChar _ h1
    have e2 := sextetVal_sextetChar _ h2
    have e3 := sextetVal_sextetChar _ h3
    have e4 := sextetVal_sextetChar _ h4
    have hne3 : sextetChar ((b0 * 65536 + b1 * 256 + b2) / 64 % 64) ≠ '=' :=
      sextetChar_ne_pad _ h3
    have hne4 : sextetChar ((b0 * 65536 + b1 * 256 + b2) % 64) ≠ '=' :=
      sextetChar_ne_pad _ h4
    simp [base64Encode, base64Decode, hne3, hne4, ih, e1, e2, e3, e4]
    refine ⟨by omega, by omega, by omega⟩

lemma utf8EncodeCharNat_lt (c : Nat) (hc : c < 1114112) :
    ∀ b ∈ utf8EncodeCharNat c, b < 256 := by
  intro b hb
  by_cases h1 : c < 128 <;> by_cases h2 : c < 2048 <;> by_cases h3 : c < 65536 <;>
    simp [utf8EncodeCharNat, h1, h2, h3] at hb <;> omega

lemma utf8Encode_lt : ∀ l : List Char, ∀ b ∈ utf8Encode l, b < 256
  | [], b, hb => by simp [utf8Encode] at hb
  | c :: cs, b, hb => by
    simp only [utf8Encode, List.mem_append] at hb
    rcases hb with hb | hb
    · exact utf8EncodeCharNat_lt c.toNat (char_toNat_lt c) b hb
    · exact utf8Encode_lt cs b hb

/-- The content fingerprint used by `load` is injective: byte-identical
fingerprints force byte-identical sources. -/
lemma fingerprint_inj (s1 s2 : String) (h : fingerprint s1 = fingerprint s2) : s1 = s2 := by
  have hdata : base64Encode (utf8Encode s1.data) = base64Encode (utf8Encode s2.data) :=
    congrArg String.data h
  have r1 := base64Decode_encode (utf8Encode s1.data) (utf8Encode_lt s1.data)
  have r2 := base64Decode_encode (utf8Encode s2.data) (utf8Encode_lt s2.data)
  rw [hdata, r2] at r1
  have he : utf8Encode s2.data = utf8Encode s1.data := by simpa using r1
  have hdd : s2.data = s1.data := utf8Encode_inj _ _ he
  exact congrArg String.mk hdd.symm

lemma takeWhile_before_newline (l r : List Char) (hl : ∀ c ∈ l, c ≠ '\n') :
    (l ++ '\n' :: r).takeWhile (fun c => c != '\n') = l := by
  induction l with
  | nil => simp [List.takeWhile]
  | cons c cs ih =>
    have hc : c ≠ '\n' := hl c (by simp)
    have hcb : (c != '\n') = true := bne_iff_ne.mpr hc
    simp [List.takeWhile, hcb, ih (fun x hx => hl x (by simp [hx]))]

/-- The header line of a generated source determines the entry name, for
names without a newline. -/
lemma extractName_loadSource (n : String) (hn : ('\n') ∉ n.data) (t : EntryType)
    (f : List String) (e : Option EnvLib) :
    extractName (loadSource n t f e) = n := by
  unfold extractName loadSource
  have hd : ("// Virtual multi-entry plugin for " ++ n ++ "\n" ++
      (String.intercalate "\n" (f.map (fileLine t)) ++ libFooterOf t e)).data =
      ("// Virtual multi-entry plugin for ").data ++
        (n.data ++ ('\n' ::
          (String.intercalate "\n" (f.map (fileLine t)) ++ libFooterOf t e).data)) := by
    simp [String.data_append]
  rw [hd]
  rw [show (34 : Nat) = ("// Virtual multi-entry plugin for ").data.length from rfl]
  rw [List.drop_left]
  rw [takeWhile_before_newline _ _ (fun c hc => by rintro rfl; exact hn hc)]

/-- Sources generated for distinct newline-free entry names are never
byte-identical. -/
lemma loadSource_ne (n1 n2 : String) (hne : n1 ≠ n2) (h1 : ('\n') ∉ n1.data)
    (h2 : ('\n') ∉ n2.data) (t1 t2 : EntryType) (f1 f2 : List String)
    (e1 e2 : Option EnvLib) :
    loadSource n1 t1 f1 e1 ≠ loadSource n2 t2 f2 e2 := by
  intro he
  apply hne
  have hx := congrArg extractName he
  rwa [extractName_loadSource _ h1, extractName_loadSource _ h2] at hx

lemma assocGet_mem (l : List (String × String)) (k v : String)
    (h : assocGet l k = some v) : (k, v) ∈ l := by
  induction l with
  | nil => simp [assocGet] at h
  | cons p rest ih =>
    by_cases hp : p.1 = k
    · simp [assocGet, hp] at h
      have hpv : (k, v) = p := by
        rw [← hp, ← h]
      rw [hpv]
      exact List.mem_cons_self p rest
    · simp [assocGet, hp] at h
      exact List.mem_cons_of_mem p (ih h)

lemma mem_assocSet (l : List (String × String)) (k v : String) (p : String × String)
    (h : p ∈ assocSet l k v) : p ∈ l ∨ p = (k, v) := by
  induction l with
  | nil => simp [assocSet] at h; right; exact h
  | cons q rest ih =>
    by_cases hq : q.1 = k
    · simp [assocSet, hq] at h
      rcases h with h | h
      · right; exact h
      · left; exact List.mem_cons_of_mem q h
    · simp [assocSet, hq] at h
      rcases h with h | h
      · left
        rw [h]
        exact List.mem_cons_self q rest
      · rcases ih h with h' | h'
        · left; exact List.mem_cons_of_mem q h'
        · right; exact h'

/-- Invariant of one build's `load` phase: with pairwise-distinct
newline-free entry names, the duplicate map never acquires a pair of
distinct names. -/
lemma runLoads_no_cross (envLib : Option EnvLib) :
    ∀ (entries : List (String × EntryType × List String)) (st : PluginState),
    (∀ k m, (k, m) ∈ st.importMap → ('\n') ∉ m.data ∧ (∀ e ∈ entries, e.1 ≠ m) ∧
        ∃ t f, k = fingerprint (loadSource m t f envLib)) →
    (∀ p ∈ st.duplicatedSources, p.1 = p.2) →
    (entries.map (fun e => e.1)).Nodup →
    (∀ e ∈ entries, ('\n') ∉ e.1.data) →
    ∀ p ∈ (runLoads envLib entries st).duplicatedSources, p.1 = p.2
  | [], st, _, hdup, _, _ => by
    simpa [runLoads] using hdup
  | (n, t, f) :: rest, st, hmap, hdup, hnodup, hnl => by
    obtain ⟨hfresh, hrest_nodup⟩ :
        (∀ (x : EntryType) (x1 : List String), (n, x, x1) ∉ rest) ∧
          (rest.map (fun e => e.1)).Nodup := by
      simpa using hnodup
    have hn_nl : ('\n') ∉ n.data := hnl (n, t, f) (by simp)
    rw [runLoads]
    dsimp only
    unfold loadHook
    rw [if_pos rfl]
    dsimp only
    rcases hres : assocGet st.importMap (fingerprint (loadSource n t f envLib)) with _ | m
    · -- no fingerprint hit: importMap extended with this entry, dups unchanged
      apply runLoads_no_cross envLib rest _
      · intro k m hkm
        rcases mem_assocSet _ _ _ _ hkm with hold | hnew
        · obtain ⟨ha, hb, hc⟩ := hmap k m hold
          exact ⟨ha, fun e he => hb e (by simp [he]), hc⟩
        · have hk : k = fingerprint (loadSource n t f envLib) := congrArg Prod.fst hnew
          have hm : m = n := congrArg Prod.snd hnew
          refine ⟨by rw [hm]; exact hn_nl, ?_, ⟨t, f, by rw [hk, hm]⟩⟩
          rintro ⟨a, b, c⟩ he hEq
          have ha : a = n := by
            have hEq' : a = m := hEq
            rw [hEq', hm]
          rw [ha] at he
          exact hfresh b c he
      · simpa using hdup
      · exact hrest_nodup
      · intro e he
        exact hnl e (by simp [he])
    · -- a fingerprint hit would force equal sources, impossible for a
      -- fresh entry name with the name-bearing header line
      exfalso
      obtain ⟨hm_nl, hm_fresh, t', f', hk⟩ := hmap _ m (assocGet_mem _ _ _ hres)
      have hsrc : loadSource n t f envLib = loadSource m t' f' envLib :=
        fingerprint_inj _ _ hk
      have hnm : n ≠ m := hm_fresh (n, t, f) (by simp)
      exact loadSource_ne n m hnm hn_nl hm_nl t t' f f' envLib envLib hsrc

/-- C7: the first header line of every generated source embeds the entry
name, so two entries with distinct newline-free names never produce
byte-identical source texts; consequently, over one build's sequence of
loads (pairwise-distinct newline-free names) the duplicate map never
records one entry name as a duplicate of a different entry's name. -/
theorem c7_header_disambiguates (envLib : Option EnvLib)
    (entries : List (String × EntryType × List String))
    (hnodup : (entries.map (fun e => e.1)).Nodup)
    (hnl : ∀ e ∈ entries, ('\n') ∉ e.1.data) :
    (∀ (n1 n2 : String) (t1 t2 : EntryType) (f1 f2 : List String)
        (e1 e2 : Option EnvLib), n1 ≠ n2 → ('\n') ∉ n1.data → ('\n') ∉ n2.data →
      loadSource n1 t1 f1 e1 ≠ loadSource n2 t2 f2 e2) ∧
    (∀ p ∈ (runLoads envLib entries freshState).duplicatedSources, p.1 = p.2) := by
  constructor
  · intro n1 n2 t1 t2 f1 f2 e1 e2 hne h1 h2
    exact loadSource_ne n1 n2 hne h1 h2 t1 t2 f1 f2 e1 e2
  · apply runLoads_no_cross envLib entries freshState
    · intro k m hkm
      simp [freshState] at hkm
    · intro p hp
      simp [freshState] at hp
    · exact hnodup
    · exact hnl

/-- C7, witness: a concrete two-entry build. -/
theorem c7_header_disambiguates_witness :
    (([("a", EntryType.app, ["x.css"]), ("b", EntryType.app, ["y.css"])].map
        (fun e => e.1)).Nodup) ∧
    (∀ e ∈ [("a", EntryType.app, ["x.css"]), ("b", EntryType.app, ["y.css"])],
      ('\n') ∉ e.1.data) ∧
    ((∀ (n1 n2 : String) (t1 t2 : EntryType) (f1 f2 : List String)
        (e1 e2 : Option EnvLib), n1 ≠ n2 → ('\n') ∉ n1.data → ('\n') ∉ n2.data →
      loadSource n1 t1 f1 e1 ≠ loadSource n2 t2 f2 e2) ∧
    (∀ p ∈ (runLoads none [("a", EntryType.app, ["x.css"]), ("b", EntryType.app, ["y.css"])]
        freshState).duplicatedSources, p.1 = p.2)) :=
  ⟨by decide, by decide,
    c7_header_disambiguates none
      [("a", EntryType.app, ["x.css"]), ("b", EntryType.app, ["y.css"])]
      (by decide) (by decide)⟩


end VirtualMultiEntry
